import Mathlib

/-!
Verification development for the MARK analysis core
(`modules/analyzer/ml_analyzer.py` and its collaborators).

The Python source is shallowly embedded: every external effect the code
performs (filesystem queries, file reads, the radon complexity /
maintainability oracle, the role strategy's signature matching) is a
parameter of the Lean functions, each fallible step returning
`Except PyErr _` exactly where the Python call can raise.  The bodies of
`analyzeSingleFile`, `analyzeProject`, `analyzeProjectsSet` and
`saveMetricsCsv` are direct transcriptions of `analyze_single_file`,
`analyze_project`, `analyze_projects_set` and `_save_metrics_csv`.
Numbers are embedded as exact rationals; `round2` models Python's
`round(x, 2)` (Python rounds half to even on the underlying float, our
`round` rounds half up; the two agree away from exact half-cent values,
which is everywhere this development evaluates it).  Strings scanned
character by character (the metrics file names) are embedded as `List
Char`; opaque labels (paths, project names) stay `String`.
-/

namespace Mark

/-- Python exception values that the embedded OS / oracle calls can raise.
`fileNotFound` models `FileNotFoundError` (e.g. `os.listdir` on a missing
directory), the rest model the other exception classes the code can see. -/
inductive PyErr where
  | fileNotFound (path : String)
  | notADirectory (path : String)
  | osError (msg : String)
  | valueError (msg : String)
deriving DecidableEq

/-- The `AnalyzerRole` enumeration of `modules/analyzer/ml_roles.py`. -/
inductive AnalyzerRole where
  | producer
  | consumer
  | metrics
deriving DecidableEq

/-- `str(role.value)`, as stored in `self.role_str`. -/
def AnalyzerRole.roleStr : AnalyzerRole → String
  | .producer => "producer"
  | .consumer => "consumer"
  | .metrics => "metrics"

/-- One signature match as produced by `check_library`: the keyword dicts
carry `library`, `keyword` and `line_number` fields (the fields read by
`analyze_project` when building rows). -/
structure SignatureMatch where
  library : String
  keyword : String
  line_number : ℕ
deriving DecidableEq

/-- A radon `cc_visit` block: the analyzer only reads its `complexity`
score (an integer in radon); the `name` field keeps the block identity. -/
structure CCBlock where
  name : String
  complexity : ℤ
deriving DecidableEq

/-- Result triple of `check_library(file)`: ML libraries, keyword matches
and load keywords. -/
structure LibScan where
  libraries : List String
  keywords : List SignatureMatch
  loadKeywords : List String
deriving DecidableEq

/-- The six-tuple returned by `analyze_single_file`:
`(libraries, keywords, list_load_keywords, cc_blocks, mi_val, sloc_val)`. -/
structure SingleFileResult where
  libraries : List String
  keywords : List SignatureMatch
  loadKeywords : List String
  ccBlocks : List CCBlock
  miVal : ℚ
  slocVal : ℕ
deriving DecidableEq

/-- The all-empty/zero six-tuple `([], [], [], [], 0, 0)` returned for a
path that is not a regular file. -/
def emptySingleFileResult : SingleFileResult := ⟨[], [], [], [], 0, 0⟩

/-- What the disk holds at one path, as observed by `os.path.isfile` and
`open(...).read()`: nothing, a directory, or a regular file whose read
attempt has the given outcome (`.error` models an `IOError` of any kind). -/
inductive DiskEntry where
  | absent
  | directory
  | file (readResult : Except PyErr String)

/-- The external callables `analyze_single_file` invokes on a file: the
role strategy's `check_library` and radon's `cc_visit` / `mi_visit`.
`check_library` is total, returning its triple of lists: the in-source
implementation (`MLMetricsAnalyzer.check_library`) returns `([], [], [])`,
and the spec's Role Strategy contract (§4.4) is a total
`matchSignatures(file) -> list` capability; the producer/consumer
implementations live outside the analyzed sources.  The two radon calls
may raise (`.error`), exactly as the Python calls can. -/
structure Oracle where
  checkLibrary : String → LibScan
  ccVisit : String → Except PyErr (List CCBlock)
  miVisit : String → Except PyErr ℚ

/-- Python `str.splitlines` on `\n`-separated text, at the character
level.  A trailing newline yields a final empty segment here that
`splitlines` omits, and an empty text yields `[[]]` instead of `[]`; an
empty segment is blank and never counted by `slocCount`, so the
difference is unobservable in the embedded code. -/
def splitLinesList : List Char → List (List Char)
  | [] => [[]]
  | c :: rest =>
      if c = '\n' then [] :: splitLinesList rest
      else
        match splitLinesList rest with
        | [] => [[c]]
        | l :: ls => (c :: l) :: ls

/-- Python `str.strip()`: drop leading and trailing whitespace. -/
def stripChars (l : List Char) : List Char :=
  ((l.dropWhile Char.isWhitespace).reverse.dropWhile Char.isWhitespace).reverse

/-- The per-line test of the SLOC sum in `analyze_single_file`:
`line.strip() and not line.strip().startswith("#")` (a nonempty stripped
line whose first character is not the comment marker). -/
def isSourceLine (line : List Char) : Bool :=
  match stripChars line with
  | [] => false
  | c :: _ => c != '#'

/-- `sloc_val = sum(1 for line in code.splitlines() if line.strip() and
not line.strip().startswith("#"))`. -/
def slocCount (code : String) : ℕ :=
  (splitLinesList code.toList).countP isSourceLine

/-- `os.path.join` for the relative-component joins the analyzer performs. -/
def pathJoin (a b : String) : String :=
  a ++ "/" ++ b

/-- `MLAnalyzer.analyze_single_file(file, repo)` over the disk state of
`file` and the external callables.  Transcription of the source:
an early all-empty return when the path is not a regular file; then
`check_library`; then the guarded read (read failure returns the scan
with zeroed metrics); then the guarded `cc_visit` / `mi_visit` (failures
degrade to `[]` / `0`); then the pure SLOC count.  The result is
`Except`-valued so that an uncaught exception would surface as `.error`. -/
def analyzeSingleFile (oracle : Oracle) (entry : DiskEntry) (filePath : String) :
    Except PyErr SingleFileResult :=
  match entry with
  | .file readResult =>
      let scan := oracle.checkLibrary filePath
      match readResult with
      | .error _ =>
          .ok ⟨scan.libraries, scan.keywords, scan.loadKeywords, [], 0, 0⟩
      | .ok code =>
          let cc_blocks :=
            match oracle.ccVisit code with
            | .ok bs => bs
            | .error _ => []
          let mi_val :=
            match oracle.miVisit code with
            | .ok v => v
            | .error _ => 0
          let sloc_val := slocCount code
          .ok ⟨scan.libraries, scan.keywords, scan.loadKeywords, cc_blocks, mi_val, sloc_val⟩
  | _ => .ok emptySingleFileResult

/-- Pure mirror of `analyzeSingleFile` (the function never raises, proved
in `analyzeSingleFile_eq_ok`); used to state closed forms of the folds. -/
def singleResult (oracle : Oracle) (entry : DiskEntry) (filePath : String) :
    SingleFileResult :=
  match entry with
  | .file readResult =>
      let scan := oracle.checkLibrary filePath
      match readResult with
      | .error _ =>
          ⟨scan.libraries, scan.keywords, scan.loadKeywords, [], 0, 0⟩
      | .ok code =>
          let cc_blocks :=
            match oracle.ccVisit code with
            | .ok bs => bs
            | .error _ => []
          let mi_val :=
            match oracle.miVisit code with
            | .ok v => v
            | .error _ => 0
          let sloc_val := slocCount code
          ⟨scan.libraries, scan.keywords, scan.loadKeywords, cc_blocks, mi_val, sloc_val⟩
  | _ => emptySingleFileResult

/-- One classification row of `analyze_project`, one Python dict of the
`rows` list.  The dict's dynamic column `f"Is ML {self.role_str}"` always
holds the literal string `"Yes"`; `roleFlag` is that value.  `whereFile`
is the dict's `"where"` entry. -/
structure ClassificationRow where
  projectName : String
  roleFlag : String
  libraries : String
  whereFile : String
  keyword : String
  line_number : ℕ
deriving DecidableEq

/-- The rows one file contributes: one per keyword match, built exactly as
in the `for keyword in keywords` loop of `analyze_project`. -/
def fileRows (project directory filePath : String)
    (keywords : List SignatureMatch) : List ClassificationRow :=
  keywords.map fun k =>
    { projectName := project ++ "/" ++ directory
      roleFlag := "Yes"
      libraries := k.library
      whereFile := filePath
      keyword := k.keyword
      line_number := k.line_number }

/-- The four accumulators of `analyze_project`:
`rows`, `all_cc_values`, `mi_weighted`, `sloc_list`. -/
structure DirAcc where
  rows : List ClassificationRow
  ccValues : List ℤ
  miWeighted : List (ℚ × ℕ)
  slocList : List ℕ
deriving DecidableEq

/-- The empty accumulators `rows = []`, `all_cc_values, mi_weighted,
sloc_list = [], [], []`. -/
def DirAcc.empty : DirAcc := ⟨[], [], [], []⟩

/-- The per-file body of `analyze_project`'s walk loop, after
`analyze_single_file` returned `r`: the metrics update guarded by
`self.role in [AnalyzerRole.METRICS]` (block complexities always, the
`(mi, sloc)` pair and the sloc only when `sloc_val > 0`), then the row
update guarded by `if keywords:`. -/
def dirFileStep (role : AnalyzerRole) (project directory filePath : String)
    (acc : DirAcc) (r : SingleFileResult) : DirAcc :=
  let acc1 :=
    if role ∈ [AnalyzerRole.metrics] then
      { acc with
        ccValues := acc.ccValues ++ r.ccBlocks.map (·.complexity)
        miWeighted :=
          if r.slocVal > 0 then acc.miWeighted ++ [(r.miVal, r.slocVal)] else acc.miWeighted
        slocList :=
          if r.slocVal > 0 then acc.slocList ++ [r.slocVal] else acc.slocList }
    else acc
  if r.keywords ≠ [] then
    { acc1 with rows := acc1.rows ++ fileRows project directory filePath r.keywords }
  else acc1

/-- The OS as the analyzer observes it: `os.walk` flattened to
`(dirpath, filenames)` pairs, the disk state of each path, `os.listdir`
(which raises when the path is missing or not a directory), and
`os.path.isdir`.  `metricsListing` is the listing of the metrics output
directory that `_save_metrics_csv` scans, with names as character lists. -/
structure OsEnv where
  walk : String → List (String × List String)
  disk : String → DiskEntry
  listdir : String → Except PyErr (List String)
  isdir : String → Bool
  metricsListing : List (List Char)

/-- The `(root, filename)` pairs the nested
`for root, _, files in os.walk(repo): for filename in files:` loop visits. -/
def walkPairs (os : OsEnv) (repo : String) : List (String × String) :=
  (os.walk repo).flatMap fun rd => rd.2.map fun f => (rd.1, f)

/-- `MLAnalyzer.analyze_project(repo, project, directory, output_folder)`:
walk the repo, skip files rejected by the externally configured
`ProjectScanner.is_valid_file` predicate (`valid`, a parameter because the
scanner module is configuration outside this core), analyze each
qualifying file and accumulate with `dirFileStep`.  Returns the four
accumulators; the per-directory CSV dump of `rows` has no reader in the
analyzed claims and is not modelled. -/
def analyzeProject (os : OsEnv) (oracle : Oracle) (role : AnalyzerRole)
    (valid : String → Bool) (repo project directory : String) :
    Except PyErr DirAcc :=
  (walkPairs os repo).foldlM
    (fun acc rf =>
      if valid rf.2 then do
        let filePath := pathJoin rf.1 rf.2
        let r ← analyzeSingleFile oracle (os.disk filePath) filePath
        pure (dirFileStep role project directory filePath acc r)
      else pure acc)
    DirAcc.empty

/-- Closed form of one walk entry's contribution to the accumulators. -/
def pairContrib (os : OsEnv) (oracle : Oracle) (role : AnalyzerRole)
    (valid : String → Bool) (project directory : String) (rf : String × String) : DirAcc :=
  if valid rf.2 then
    let filePath := pathJoin rf.1 rf.2
    dirFileStep role project directory filePath DirAcc.empty
      (singleResult oracle (os.disk filePath) filePath)
  else DirAcc.empty

/-- Fieldwise concatenation of accumulators. -/
def DirAcc.append (a b : DirAcc) : DirAcc :=
  ⟨a.rows ++ b.rows, a.ccValues ++ b.ccValues,
   a.miWeighted ++ b.miWeighted, a.slocList ++ b.slocList⟩

/-- Closed form of the whole directory scan: the fieldwise concatenation
of the per-entry contributions. -/
def dirClosed (os : OsEnv) (oracle : Oracle) (role : AnalyzerRole)
    (valid : String → Bool) (repo project directory : String) : DirAcc :=
  ((walkPairs os repo).map (pairContrib os oracle role valid project directory)).foldl
    DirAcc.append DirAcc.empty

/-- Python `round(x, 2)`: scale by 100, round to an integer, scale back.
Mathlib's `round` rounds half up where Python rounds half to even; the
development only evaluates `round2` away from exact half-cent values,
where the two conventions agree. -/
def round2 (q : ℚ) : ℚ :=
  (round (q * 100) : ℚ) / 100

/-- One row of the metrics accumulator, the dict
`{"ProjectName": ..., "CC_avg": ..., "MI_avg": ...}` appended per project
by `analyze_projects_set`. -/
structure MetricsRecord where
  projectName : String
  ccAvg : ℚ
  miAvg : ℚ
deriving DecidableEq

/-- The per-project aggregate of `analyze_projects_set`:
`cc_avg = sum(project_cc) / len(project_cc) if project_cc else 0`,
`total_sloc = sum(project_sloc)`,
`mi_avg = sum(mi * sloc for mi, sloc in project_mi) / total_sloc if
total_sloc > 0 else 0`, both rounded to two decimals. -/
def projectRecord (project : String) (projectCC : List ℤ)
    (projectMI : List (ℚ × ℕ)) (projectSloc : List ℕ) : MetricsRecord :=
  let cc_avg : ℚ := if projectCC ≠ [] then (projectCC.sum : ℚ) / projectCC.length else 0
  let total_sloc : ℕ := projectSloc.sum
  let mi_avg : ℚ :=
    if total_sloc > 0 then
      (projectMI.map fun p => p.1 * (p.2 : ℚ)).sum / (total_sloc : ℚ)
    else 0
  ⟨project, round2 cc_avg, round2 mi_avg⟩

/-- The decimal digit characters. -/
def digitChar : ℕ → Char
  | 0 => '0'
  | 1 => '1'
  | 2 => '2'
  | 3 => '3'
  | 4 => '4'
  | 5 => '5'
  | 6 => '6'
  | 7 => '7'
  | 8 => '8'
  | _ => '9'

/-- Fuel-driven decimal rendering: structural recursion on the fuel so
that the kernel can evaluate it.  `fuel > n` always suffices. -/
def natToDecimalAux : ℕ → ℕ → List Char
  | 0, _ => []
  | fuel + 1, n =>
      if n < 10 then [digitChar n]
      else natToDecimalAux fuel (n / 10) ++ [digitChar (n % 10)]

/-- Decimal rendering of a natural number, as produced by Python's
`f"{next_index}"` formatting. -/
def natToDecimal (n : ℕ) : List Char :=
  natToDecimalAux (n + 1) n

/-- Python `f.split("_")[0]`: the characters before the first underscore
(the whole name when it has none). -/
def firstField (f : List Char) : List Char :=
  f.takeWhile fun c => c != '_'

/-- Python `str.isdigit()` for ASCII content: nonempty and all decimal
digits.  (Python also accepts some non-ASCII digit characters; none occur
in this development.) -/
def pyIsDigit (s : List Char) : Bool :=
  !s.isEmpty && s.all Char.isDigit

/-- Python `int(s)` on a decimal digit string. -/
def pyIntNat (s : List Char) : ℕ :=
  s.foldl (fun n c => 10 * n + (c.toNat - 48)) 0

/-- The constant name tail `"_metrics.csv"`. -/
def metricsTail : List Char :=
  "_metrics.csv".toList

/-- The filter of `_save_metrics_csv`:
`f.endswith("_metrics.csv") and f.split("_")[0].isdigit()`. -/
def isIndexedMetricsFile (f : List Char) : Bool :=
  metricsTail.isSuffixOf f && pyIsDigit (firstField f)

/-- `next_index = max(int(f.split("_")[0]) for f in existing) + 1 if
existing else 1` (for lists of naturals the Python `max` over a nonempty
list equals `foldl max 0`). -/
def nextMetricsIndex (listing : List (List Char)) : ℕ :=
  let existing := listing.filter isIndexedMetricsFile
  if existing ≠ [] then
    (existing.map fun f => pyIntNat (firstField f)).foldl max 0 + 1
  else 1

/-- A metrics CSV write: the file name created under the metrics
directory and the rows dumped into it. -/
structure SavedCsv where
  fileName : List Char
  records : List MetricsRecord
deriving DecidableEq

/-- `MLAnalyzer._save_metrics_csv(output_base_path)` over the current
listing of the metrics directory: no write unless the role is Metrics and
the accumulator is nonempty; otherwise a new `"{next_index}_metrics.csv"`
holding the accumulator.  `none` means no file is written. -/
def saveMetricsCsv (role : AnalyzerRole) (projectMetrics : List MetricsRecord)
    (listing : List (List Char)) : Option SavedCsv :=
  if role ≠ AnalyzerRole.metrics then none
  else if projectMetrics = [] then none
  else some ⟨natToDecimal (nextMetricsIndex listing) ++ metricsTail, projectMetrics⟩

/-- The scan described by the spec sentence for C6, word for word: files
matching the exact pattern `"{integer}_metrics.csv"`, i.e. a digit string
followed immediately by `"_metrics.csv"`.  Kept separate from the
source-derived `isIndexedMetricsFile` so the two can be compared. -/
def isExactPatternFile (f : List Char) : Bool :=
  pyIsDigit (firstField f) && f == firstField f ++ metricsTail

/-- The metrics save as the claim words it: identical to `saveMetricsCsv`
except that the scan only counts exact `"{integer}_metrics.csv"` names. -/
def specSaveMetricsCsv (role : AnalyzerRole) (projectMetrics : List MetricsRecord)
    (listing : List (List Char)) : Option SavedCsv :=
  if role ≠ AnalyzerRole.metrics then none
  else if projectMetrics = [] then none
  else
    let existing := listing.filter isExactPatternFile
    let nextIndex :=
      if existing ≠ [] then
        (existing.map fun f => pyIntNat (firstField f)).foldl max 0 + 1
      else 1
    some ⟨natToDecimal nextIndex ++ metricsTail, projectMetrics⟩

/-- N successive metrics saves against the same directory: each write adds
its file to the listing seen by the next save. -/
def iterateSaves (role : AnalyzerRole) (projectMetrics : List MetricsRecord)
    (listing : List (List Char)) : ℕ → List (List Char)
  | 0 => listing
  | n + 1 =>
      let l := iterateSaves role projectMetrics listing n
      match saveMetricsCsv role projectMetrics l with
      | none => l
      | some s => l ++ [s.fileName]

/-- The project-local metric accumulators of `analyze_projects_set`:
`project_cc, project_mi, project_sloc`. -/
structure ProjState where
  projectCC : List ℤ
  projectMI : List (ℚ × ℕ)
  projectSloc : List ℕ
deriving DecidableEq

/-- The body of the inner `for dir_path in os.listdir(project_path)` loop:
skip non-directories, run the directory analyzer, extend the project
accumulators when the role is Metrics, and extend the global row list
when the directory's table is nonempty. -/
def innerDirStep (os : OsEnv) (oracle : Oracle) (role : AnalyzerRole)
    (valid : String → Bool) (projectPath project : String)
    (st : ProjState × List ClassificationRow) (dirPath : String) :
    Except PyErr (ProjState × List ClassificationRow) :=
  let fullDirPath := pathJoin projectPath dirPath
  if os.isdir fullDirPath then do
    let d ← analyzeProject os oracle role valid fullDirPath project dirPath
    let pst :=
      if role = AnalyzerRole.metrics then
        ⟨st.1.projectCC ++ d.ccValues, st.1.projectMI ++ d.miWeighted,
         st.1.projectSloc ++ d.slocList⟩
      else st.1
    pure (pst, if d.rows ≠ [] then st.2 ++ d.rows else st.2)
  else pure st

/-- The body of the outer `for project in os.listdir(input_folder)` loop:
skip non-directories, fold the inner loop over the project's entries with
fresh project accumulators, then (Metrics role only) append the project's
`MetricsRecord`. -/
def outerProjStep (os : OsEnv) (oracle : Oracle) (role : AnalyzerRole)
    (valid : String → Bool) (inputFolder : String)
    (st : List ClassificationRow × List MetricsRecord) (project : String) :
    Except PyErr (List ClassificationRow × List MetricsRecord) :=
  let projectPath := pathJoin inputFolder project
  if os.isdir projectPath then do
    let subEntries ← os.listdir projectPath
    let pst ← subEntries.foldlM
      (innerDirStep os oracle role valid projectPath project) (⟨[], [], []⟩, st.1)
    let metrics :=
      if role = AnalyzerRole.metrics then
        st.2 ++ [projectRecord project pst.1.projectCC pst.1.projectMI pst.1.projectSloc]
      else st.2
    pure (pst.2, metrics)
  else pure st

/-- What one whole run leaves behind: the run-global classification rows
(the `results.csv` content when nonempty), the metrics accumulator, and
the metrics CSV written by `_save_metrics_csv` (`none` = no file). -/
structure RunResult where
  allRows : List ClassificationRow
  projectMetrics : List MetricsRecord
  savedMetrics : Option SavedCsv
deriving DecidableEq

/-- `MLAnalyzer.analyze_projects_set(input_folder, output_folder)`:
`os.listdir` on the input root (raising `FileNotFoundError` when it does
not exist), the two nested loops, then `_save_metrics_csv`. -/
def analyzeProjectsSet (os : OsEnv) (oracle : Oracle) (role : AnalyzerRole)
    (valid : String → Bool) (inputFolder : String) : Except PyErr RunResult := do
  let entries ← os.listdir inputFolder
  let st ← entries.foldlM (outerProjStep os oracle role valid inputFolder) ([], [])
  pure ⟨st.1, st.2, saveMetricsCsv role st.2 os.metricsListing⟩

/-- Pure mirror of `innerDirStep` (which never raises). -/
def innerStepPure (os : OsEnv) (oracle : Oracle) (role : AnalyzerRole)
    (valid : String → Bool) (projectPath project : String)
    (st : ProjState × List ClassificationRow) (dirPath : String) :
    ProjState × List ClassificationRow :=
  let fullDirPath := pathJoin projectPath dirPath
  if os.isdir fullDirPath then
    let d := dirClosed os oracle role valid fullDirPath project dirPath
    let pst :=
      if role = AnalyzerRole.metrics then
        ⟨st.1.projectCC ++ d.ccValues, st.1.projectMI ++ d.miWeighted,
         st.1.projectSloc ++ d.slocList⟩
      else st.1
    (pst, if d.rows ≠ [] then st.2 ++ d.rows else st.2)
  else st

/-- The sub-entries of one project that are directories: the components
the inner loop actually analyzes. -/
def componentDirs (os : OsEnv) (projectPath : String) (subs : List String) : List String :=
  subs.filter fun d => os.isdir (pathJoin projectPath d)

/-- Closed form of a project's classification rows: the concatenation of
its component directories' rows. -/
def projRowsClosed (os : OsEnv) (oracle : Oracle) (role : AnalyzerRole)
    (valid : String → Bool) (projectPath project : String) (subs : List String) :
    List ClassificationRow :=
  (componentDirs os projectPath subs).flatMap fun d =>
    (dirClosed os oracle role valid (pathJoin projectPath d) project d).rows

/-- Closed form of `project_cc`: every block complexity collected in any
component of the project. -/
def projCCClosed (os : OsEnv) (oracle : Oracle) (valid : String → Bool)
    (projectPath project : String) (subs : List String) : List ℤ :=
  (componentDirs os projectPath subs).flatMap fun d =>
    (dirClosed os oracle AnalyzerRole.metrics valid (pathJoin projectPath d) project d).ccValues

/-- Closed form of `project_mi`: the `(maintainability, sloc)` pairs
collected in any component of the project. -/
def projMIClosed (os : OsEnv) (oracle : Oracle) (valid : String → Bool)
    (projectPath project : String) (subs : List String) : List (ℚ × ℕ) :=
  (componentDirs os projectPath subs).flatMap fun d =>
    (dirClosed os oracle AnalyzerRole.metrics valid (pathJoin projectPath d) project d).miWeighted

/-- Closed form of `project_sloc`. -/
def projSlocClosed (os : OsEnv) (oracle : Oracle) (valid : String → Bool)
    (projectPath project : String) (subs : List String) : List ℕ :=
  (componentDirs os projectPath subs).flatMap fun d =>
    (dirClosed os oracle AnalyzerRole.metrics valid (pathJoin projectPath d) project d).slocList

/-- The top-level entries of the input root that are directories: the
projects the outer loop actually processes. -/
def dirProjects (os : OsEnv) (inputFolder : String) (entries : List String) : List String :=
  entries.filter fun p => os.isdir (pathJoin inputFolder p)

/-- Closed form of the run-global row list under the Metrics role. -/
def runRowsClosed (os : OsEnv) (oracle : Oracle) (role : AnalyzerRole)
    (valid : String → Bool) (inputFolder : String) (entries : List String)
    (subs : String → List String) : List ClassificationRow :=
  (dirProjects os inputFolder entries).flatMap fun p =>
    projRowsClosed os oracle role valid (pathJoin inputFolder p) p (subs p)

/-- Closed form of the metrics accumulator under the Metrics role: one
record per processed project. -/
def runRecordsClosed (os : OsEnv) (oracle : Oracle) (valid : String → Bool)
    (inputFolder : String) (entries : List String) (subs : String → List String) :
    List MetricsRecord :=
  (dirProjects os inputFolder entries).map fun p =>
    projectRecord p
      (projCCClosed os oracle valid (pathJoin inputFolder p) p (subs p))
      (projMIClosed os oracle valid (pathJoin inputFolder p) p (subs p))
      (projSlocClosed os oracle valid (pathJoin inputFolder p) p (subs p))

/-- A concrete oracle used to evaluate the theorems on one input: one
library, one training-call match at line 68, three blocks of
complexities 1, 2, 2, maintainability 100. -/
def oracle0 : Oracle where
  checkLibrary := fun _ => ⟨["sklearn"], [⟨"sklearn", "model.fit", 68⟩], []⟩
  ccVisit := fun _ => .ok [⟨"f", 1⟩, ⟨"g", 2⟩, ⟨"h", 2⟩]
  miVisit := fun _ => .ok 100

/-- A concrete oracle whose strategy finds nothing and whose radon calls
raise: exercises the degradation paths. -/
def oracleFail : Oracle where
  checkLibrary := fun _ => ⟨[], [], []⟩
  ccVisit := fun _ => .error (.valueError "bad source")
  miVisit := fun _ => .error (.valueError "bad source")

/-- A concrete total directory structure: `os.listdir` succeeds on every
path (the project-set root "in" holds one project directory and a stray
file, the project holds one component directory and a stray file). -/
def os1entries : String → List String := fun p =>
  if p = "in" then ["proj", "stray.txt"]
  else if p = "in/proj" then ["comp", "notes.txt"]
  else []

/-- A concrete OS environment for evaluating the theorems: one component
directory containing one Python file and one non-Python file, every file
readable with the same four-line text. -/
def os1 : OsEnv where
  walk := fun p =>
    if p = "in/proj/comp" then [(p, ["a.py", "b.txt"])] else []
  disk := fun _ => .file (.ok "x = 1\n\n# note\ny = 2\n")
  listdir := fun p => .ok (os1entries p)
  isdir := fun p => p = "in" || p = "in/proj" || p = "in/proj/comp"
  metricsListing := []

/-- A concrete OS environment whose input root does not exist: `listdir`
raises `FileNotFoundError` everywhere. -/
def osMissing : OsEnv where
  walk := fun _ => []
  disk := fun _ => .absent
  listdir := fun p => .error (.fileNotFound p)
  isdir := fun _ => false
  metricsListing := []

/-- A concrete OS environment whose input root exists but contains no
directory entries, while the metrics directory already holds a file. -/
def osNoDirs : OsEnv where
  walk := fun _ => []
  disk := fun _ => .absent
  listdir := fun _ => .ok ["f.txt"]
  isdir := fun _ => false
  metricsListing := [("1_metrics.csv").toList]

/-- A concrete file-acceptance predicate accepting exactly the Python
file of `os1` (the externally configured extension filter is opaque
configuration; any Boolean predicate instantiates it). -/
def valid0 : String → Bool := fun f => f = "a.py"

/-- A concrete metrics record for exercising the metrics persistence. -/
def rec0 : MetricsRecord := ⟨"P", 0, 0⟩

theorem analyzeSingleFile_eq_ok (oracle : Oracle) (entry : DiskEntry) (filePath : String) :
    analyzeSingleFile oracle entry filePath = .ok (singleResult oracle entry filePath) := by
  cases entry with
  | absent => rfl
  | directory => rfl
  | file readResult => cases readResult <;> rfl

theorem DirAcc.append_empty (a : DirAcc) : a.append DirAcc.empty = a := by
  simp [DirAcc.append, DirAcc.empty]

theorem DirAcc.empty_append (a : DirAcc) : DirAcc.empty.append a = a := by
  simp [DirAcc.append, DirAcc.empty]

theorem DirAcc.append_assoc (a b c : DirAcc) :
    (a.append b).append c = a.append (b.append c) := by
  simp [DirAcc.append]

theorem dirFileStep_append (role : AnalyzerRole) (project directory filePath : String)
    (acc : DirAcc) (r : SingleFileResult) :
    dirFileStep role project directory filePath acc r =
      acc.append (dirFileStep role project directory filePath DirAcc.empty r) := by
  unfold dirFileStep
  cases acc with
  | mk rows cc mi sloc =>
    by_cases hrole : role = AnalyzerRole.metrics <;>
      by_cases hk : r.keywords = [] <;>
        by_cases hs : r.slocVal > 0 <;>
          simp [hrole, hk, hs, DirAcc.append, DirAcc.empty, fileRows,
            List.mem_singleton]

theorem foldlM_except_ok {α β ε : Type} (g : β → α → Except ε β) (f : β → α → β)
    (h : ∀ b a, g b a = Except.ok (f b a)) :
    ∀ (l : List α) (init : β), l.foldlM g init = Except.ok (l.foldl f init) := by
  intro l
  induction l with
  | nil => intro init; rfl
  | cons a t ih =>
      intro init
      simp only [List.foldlM, List.foldl, h, ih]
      rfl

theorem foldl_dirAppend (l : List DirAcc) :
    ∀ z : DirAcc, l.foldl DirAcc.append z =
      z.append (l.foldl DirAcc.append DirAcc.empty) := by
  induction l with
  | nil => intro z; simp [List.foldl, DirAcc.append_empty]
  | cons a t ih =>
      intro z
      simp only [List.foldl]
      rw [ih (z.append a), ih (DirAcc.empty.append a), DirAcc.empty_append,
        DirAcc.append_assoc]

theorem foldl_append_contrib {α : Type} (f : α → DirAcc) :
    ∀ (l : List α) (init : DirAcc),
      l.foldl (fun acc x => acc.append (f x)) init =
        init.append ((l.map f).foldl DirAcc.append DirAcc.empty) := by
  intro l
  induction l with
  | nil => intro init; simp [List.foldl, DirAcc.append_empty]
  | cons a t ih =>
      intro init
      simp only [List.foldl, List.map]
      rw [ih (init.append (f a)), foldl_dirAppend _ (DirAcc.empty.append (f a)),
        DirAcc.empty_append, DirAcc.append_assoc]

theorem analyzeProject_eq_ok (os : OsEnv) (oracle : Oracle) (role : AnalyzerRole)
    (valid : String → Bool) (repo project directory : String) :
    analyzeProject os oracle role valid repo project directory =
      .ok (dirClosed os oracle role valid repo project directory) := by
  unfold analyzeProject dirClosed
  rw [foldlM_except_ok _
    (fun acc rf => acc.append (pairContrib os oracle role valid project directory rf))]
  · rw [foldl_append_contrib, DirAcc.empty_append]
  · intro b a
    by_cases hv : valid a.2
    · simp [hv, analyzeSingleFile_eq_ok, pairContrib, Except.bind,
        dirFileStep_append role project directory (pathJoin a.1 a.2) b]
    · simp [hv, pairContrib, DirAcc.append_empty, pure, Except.pure]

theorem foldl_dirAppend_fields (l : List DirAcc) :
    (l.foldl DirAcc.append DirAcc.empty).rows = l.flatMap DirAcc.rows ∧
    (l.foldl DirAcc.append DirAcc.empty).ccValues = l.flatMap DirAcc.ccValues ∧
    (l.foldl DirAcc.append DirAcc.empty).miWeighted = l.flatMap DirAcc.miWeighted ∧
    (l.foldl DirAcc.append DirAcc.empty).slocList = l.flatMap DirAcc.slocList := by
  induction l with
  | nil => exact ⟨rfl, rfl, rfl, rfl⟩
  | cons a t ih =>
      obtain ⟨h1, h2, h3, h4⟩ := ih
      simp only [List.foldl, DirAcc.empty_append, List.flatMap_cons]
      rw [foldl_dirAppend t a]
      exact ⟨by simp [DirAcc.append, h1], by simp [DirAcc.append, h2],
        by simp [DirAcc.append, h3], by simp [DirAcc.append, h4]⟩

theorem dirClosed_rows (os : OsEnv) (oracle : Oracle) (role : AnalyzerRole)
    (valid : String → Bool) (repo project directory : String) :
    (dirClosed os oracle role valid repo project directory).rows =
      (walkPairs os repo).flatMap
        (fun rf => (pairContrib os oracle role valid project directory rf).rows) := by
  unfold dirClosed
  rw [(foldl_dirAppend_fields _).1, List.flatMap_map]

theorem dirClosed_ccValues (os : OsEnv) (oracle : Oracle) (role : AnalyzerRole)
    (valid : String → Bool) (repo project directory : String) :
    (dirClosed os oracle role valid repo project directory).ccValues =
      (walkPairs os repo).flatMap
        (fun rf => (pairContrib os oracle role valid project directory rf).ccValues) := by
  unfold dirClosed
  rw [(foldl_dirAppend_fields _).2.1, List.flatMap_map]

theorem dirClosed_miWeighted (os : OsEnv) (oracle : Oracle) (role : AnalyzerRole)
    (valid : String → Bool) (repo project directory : String) :
    (dirClosed os oracle role valid repo project directory).miWeighted =
      (walkPairs os repo).flatMap
        (fun rf => (pairContrib os oracle role valid project directory rf).miWeighted) := by
  unfold dirClosed
  rw [(foldl_dirAppend_fields _).2.2.1, List.flatMap_map]

theorem dirClosed_slocList (os : OsEnv) (oracle : Oracle) (role : AnalyzerRole)
    (valid : String → Bool) (repo project directory : String) :
    (dirClosed os oracle role valid repo project directory).slocList =
      (walkPairs os repo).flatMap
        (fun rf => (pairContrib os oracle role valid project directory rf).slocList) := by
  unfold dirClosed
  rw [(foldl_dirAppend_fields _).2.2.2, List.flatMap_map]

theorem dirFileStep_empty_fields (role : AnalyzerRole) (project directory filePath : String)
    (r : SingleFileResult) :
    (dirFileStep role project directory filePath DirAcc.empty r).rows =
      fileRows project directory filePath r.keywords ∧
    (dirFileStep role project directory filePath DirAcc.empty r).ccValues =
      (if role = AnalyzerRole.metrics then r.ccBlocks.map (·.complexity) else []) ∧
    (dirFileStep role project directory filePath DirAcc.empty r).miWeighted =
      (if role = AnalyzerRole.metrics ∧ r.slocVal > 0 then [(r.miVal, r.slocVal)] else []) ∧
    (dirFileStep role project directory filePath DirAcc.empty r).slocList =
      (if role = AnalyzerRole.metrics ∧ r.slocVal > 0 then [r.slocVal] else []) := by
  unfold dirFileStep
  by_cases hrole : role = AnalyzerRole.metrics <;>
    by_cases hk : r.keywords = [] <;>
      by_cases hs : r.slocVal > 0 <;>
        simp [hrole, hk, hs, DirAcc.empty, fileRows, List.mem_singleton]

theorem pairContrib_rows (os : OsEnv) (oracle : Oracle) (role : AnalyzerRole)
    (valid : String → Bool) (project directory : String) (rf : String × String) :
    (pairContrib os oracle role valid project directory rf).rows =
      (if valid rf.2 then
        fileRows project directory (pathJoin rf.1 rf.2)
          (singleResult oracle (os.disk (pathJoin rf.1 rf.2)) (pathJoin rf.1 rf.2)).keywords
       else []) := by
  unfold pairContrib
  by_cases hv : valid rf.2 <;> simp [hv, dirFileStep_empty_fields, DirAcc.empty]
  exact (dirFileStep_empty_fields _ _ _ _ _).1

theorem pairContrib_ccValues (os : OsEnv) (oracle : Oracle) (role : AnalyzerRole)
    (valid : String → Bool) (project directory : String) (rf : String × String) :
    (pairContrib os oracle role valid project directory rf).ccValues =
      (if valid rf.2 ∧ role = AnalyzerRole.metrics then
        ((singleResult oracle (os.disk (pathJoin rf.1 rf.2)) (pathJoin rf.1 rf.2)).ccBlocks.map
          (·.complexity))
       else []) := by
  unfold pairContrib
  by_cases hv : valid rf.2
  · rw [if_pos hv]
    rw [(dirFileStep_empty_fields role project directory (pathJoin rf.1 rf.2) _).2.1]
    by_cases hrole : role = AnalyzerRole.metrics <;> simp [hv, hrole]
  · simp [hv, DirAcc.empty]

theorem pairContrib_miWeighted (os : OsEnv) (oracle : Oracle) (role : AnalyzerRole)
    (valid : String → Bool) (project directory : String) (rf : String × String) :
    (pairContrib os oracle role valid project directory rf).miWeighted =
      (if valid rf.2 ∧ role = AnalyzerRole.metrics ∧
          (singleResult oracle (os.disk (pathJoin rf.1 rf.2)) (pathJoin rf.1 rf.2)).slocVal > 0 then
        [((singleResult oracle (os.disk (pathJoin rf.1 rf.2)) (pathJoin rf.1 rf.2)).miVal,
          (singleResult oracle (os.disk (pathJoin rf.1 rf.2)) (pathJoin rf.1 rf.2)).slocVal)]
       else []) := by
  unfold pairContrib
  by_cases hv : valid rf.2
  · rw [if_pos hv]
    rw [(dirFileStep_empty_fields role project directory (pathJoin rf.1 rf.2) _).2.2.1]
    by_cases hrole : role = AnalyzerRole.metrics <;>
      by_cases hs :
        (singleResult oracle (os.disk (pathJoin rf.1 rf.2)) (pathJoin rf.1 rf.2)).slocVal > 0 <;>
        simp [hv, hrole, hs]
  · simp [hv, DirAcc.empty]

theorem pairContrib_slocList (os : OsEnv) (oracle : Oracle) (role : AnalyzerRole)
    (valid : String → Bool) (project directory : String) (rf : String × String) :
    (pairContrib os oracle role valid project directory rf).slocList =
      (pairContrib os oracle role valid project directory rf).miWeighted.map (·.2) := by
  unfold pairContrib
  by_cases hv : valid rf.2
  · rw [if_pos hv]
    rw [(dirFileStep_empty_fields role project directory (pathJoin rf.1 rf.2) _).2.2.1,
      (dirFileStep_empty_fields role project directory (pathJoin rf.1 rf.2) _).2.2.2]
    split <;> simp
  · simp [hv, DirAcc.empty]

theorem dirClosed_lockstep (os : OsEnv) (oracle : Oracle) (role : AnalyzerRole)
    (valid : String → Bool) (repo project directory : String) :
    (dirClosed os oracle role valid repo project directory).slocList =
      (dirClosed os oracle role valid repo project directory).miWeighted.map (·.2) := by
  rw [dirClosed_slocList, dirClosed_miWeighted, List.map_flatMap]
  exact List.flatMap_congr fun rf _ => pairContrib_slocList os oracle role valid
    project directory rf

theorem dirClosed_mi_pos (os : OsEnv) (oracle : Oracle) (role : AnalyzerRole)
    (valid : String → Bool) (repo project directory : String) :
    ∀ pr ∈ (dirClosed os oracle role valid repo project directory).miWeighted, 0 < pr.2 := by
  rw [dirClosed_miWeighted]
  intro pr hpr
  rw [List.mem_flatMap] at hpr
  obtain ⟨rf, _, hmem⟩ := hpr
  rw [pairContrib_miWeighted] at hmem
  split at hmem
  · rename_i hcond
    rw [List.mem_singleton] at hmem
    subst hmem
    exact hcond.2.2
  · simp at hmem

/-- C1: `analyze_single_file` never raises for any role strategy, disk
state and oracle behavior: it always returns a value, and each failure
mode degrades only its own signal — a missing-file path returns the
all-empty result, a failed text read still returns the signature scan
already obtained together with `blocks = []`, `maintainability = 0`,
`sloc = 0`, a complexity-extraction failure only empties the block list,
and a maintainability-scoring failure only zeroes the score, the SLOC
count and the scan surviving in both cases. -/
theorem analyze_single_file_never_raises (oracle : Oracle) (entry : DiskEntry)
    (filePath : String) :
    (∃ r, analyzeSingleFile oracle entry filePath = .ok r) ∧
    ((entry = .absent ∨ entry = .directory) →
      analyzeSingleFile oracle entry filePath = .ok emptySingleFileResult) ∧
    (∀ e, entry = .file (.error e) →
      analyzeSingleFile oracle entry filePath =
        .ok ⟨(oracle.checkLibrary filePath).libraries,
             (oracle.checkLibrary filePath).keywords,
             (oracle.checkLibrary filePath).loadKeywords, [], 0, 0⟩) ∧
    (∀ code e, entry = .file (.ok code) → oracle.ccVisit code = .error e →
      (singleResult oracle entry filePath).ccBlocks = [] ∧
      (singleResult oracle entry filePath).slocVal = slocCount code ∧
      (singleResult oracle entry filePath).keywords =
        (oracle.checkLibrary filePath).keywords) ∧
    (∀ code e, entry = .file (.ok code) → oracle.miVisit code = .error e →
      (singleResult oracle entry filePath).miVal = 0 ∧
      (singleResult oracle entry filePath).slocVal = slocCount code ∧
      (singleResult oracle entry filePath).keywords =
        (oracle.checkLibrary filePath).keywords) := by
  refine ⟨⟨singleResult oracle entry filePath, analyzeSingleFile_eq_ok oracle entry filePath⟩,
    ?_, ?_, ?_, ?_⟩
  · rintro (h | h) <;> subst h <;> rfl
  · intro e he; subst he; rfl
  · intro code e he hcc
    subst he
    simp [singleResult, hcc]
  · intro code e he hmi
    subst he
    simp [singleResult, hmi]

/-- C1 witness: the degradation equations evaluated at a concrete failing
oracle, a concrete unreadable file and a concrete readable one. -/
theorem analyze_single_file_never_raises_witness :
    analyzeSingleFile oracleFail (.file (.error (.osError "locked"))) "f.py" =
      .ok ⟨[], [], [], [], 0, 0⟩ ∧
    (singleResult oracleFail (.file (.ok "bad(")) "f.py").ccBlocks = [] ∧
    (singleResult oracleFail (.file (.ok "bad(")) "f.py").miVal = 0 := by
  refine ⟨?_, ?_, ?_⟩
  · exact (analyze_single_file_never_raises oracleFail
      (.file (.error (.osError "locked"))) "f.py").2.2.1 (.osError "locked") rfl
  · exact ((analyze_single_file_never_raises oracleFail
      (.file (.ok "bad(")) "f.py").2.2.2.1 "bad(" (.valueError "bad source") rfl rfl).1
  · exact ((analyze_single_file_never_raises oracleFail
      (.file (.ok "bad(")) "f.py").2.2.2.2 "bad(" (.valueError "bad source") rfl rfl).1

/-- C5: for a path that does not exist on disk, `analyze_single_file`
returns the all-empty/zero result for every oracle and role strategy —
the result does not depend on the strategy or the radon calls at all, so
neither is invoked — and this is an ordinary `.ok` return, not an error. -/
theorem analyze_single_file_nonexistent (oracle : Oracle) (filePath : String) :
    analyzeSingleFile oracle .absent filePath = .ok emptySingleFileResult ∧
    emptySingleFileResult = ⟨[], [], [], [], 0, 0⟩ :=
  ⟨rfl, rfl⟩

/-- C9: a path that exists but is not a regular file (a directory) gets
the same all-empty/zero result as a non-existent path, because the guard
is `os.path.isfile`, not mere existence. -/
theorem analyze_single_file_directory_path (oracle : Oracle) (filePath : String) :
    analyzeSingleFile oracle .directory filePath = .ok emptySingleFileResult ∧
    analyzeSingleFile oracle .directory filePath =
      analyzeSingleFile oracle .absent filePath :=
  ⟨rfl, rfl⟩

/-- C7: the source-line count is the number of lines that are nonempty
after stripping and do not start with the comment marker; it is pure
string processing, independent of the complexity/maintainability
outcomes; a file of only blank and comment lines counts 0; and a file
with `sloc = 0` contributes nothing to the metric-weighting accumulators
under any role. -/
theorem sloc_pure_count (oracle : Oracle) (filePath code : String) :
    slocCount code =
      ((splitLinesList code.toList).filter
        (fun l =>
          match stripChars l with
          | [] => false
          | c :: _ => c != '#')).length ∧
    analyzeSingleFile oracle (.file (.ok code)) filePath =
      .ok (singleResult oracle (.file (.ok code)) filePath) ∧
    (singleResult oracle (.file (.ok code)) filePath).slocVal = slocCount code ∧
    ((∀ l ∈ splitLinesList code.toList,
        stripChars l = [] ∨ (stripChars l).head? = some '#') →
      slocCount code = 0) ∧
    (∀ (role : AnalyzerRole) (project directory fp : String) (acc : DirAcc)
        (r : SingleFileResult), r.slocVal = 0 →
      (dirFileStep role project directory fp acc r).miWeighted = acc.miWeighted ∧
      (dirFileStep role project directory fp acc r).slocList = acc.slocList) := by
  refine ⟨?_, analyzeSingleFile_eq_ok _ _ _, rfl, ?_, ?_⟩
  · exact List.countP_eq_length_filter _ _
  · intro h
    rw [slocCount, List.countP_eq_zero]
    intro l hl
    rcases h l hl with h0 | h0
    · simp [isSourceLine, h0]
    · rw [isSourceLine]
      cases hsl : stripChars l with
      | nil => simp
      | cons c cs =>
          rw [hsl] at h0
          simp only [List.head?_cons, Option.some_inj] at h0
          simp [h0]
  · intro role project directory fp acc r hr
    unfold dirFileStep
    by_cases hrole : role = AnalyzerRole.metrics <;>
      by_cases hk : r.keywords = [] <;>
        simp [hrole, hk, hr, List.mem_singleton]

/-- C7 witness: a blank/comment-only file evaluates to 0 source lines,
and a zero-SLOC file leaves the weighting accumulators untouched. -/
theorem sloc_pure_count_witness :
    slocCount "# a\n\n  \n# b" = 0 ∧
    (dirFileStep .metrics "p" "d" "f" DirAcc.empty ⟨[], [], [], [], 55, 0⟩).miWeighted = [] := by
  constructor
  · exact (sloc_pure_count oracle0 "f" "# a\n\n  \n# b").2.2.2.1 (by decide)
  · exact ((sloc_pure_count oracle0 "f" "").2.2.2.2 .metrics "p" "d" "f"
      DirAcc.empty ⟨[], [], [], [], 55, 0⟩ rfl).1

theorem sum_map_ite_filter {α : Type} (p : α → Bool) (g : α → ℕ) :
    ∀ l : List α,
      (l.map fun x => if p x then g x else 0).sum = ((l.filter p).map g).sum := by
  intro l
  induction l with
  | nil => rfl
  | cons a t ih =>
      by_cases hp : p a <;> simp [hp, ih]

/-- C4: the number of classification rows a directory scan emits equals
the total number of signature matches over its qualifying files — a file
with `k` matches contributes `k` rows, a file with none contributes no
row — and every emitted row carries the literal role flag value "Yes". -/
theorem classification_row_count (os : OsEnv) (oracle : Oracle) (role : AnalyzerRole)
    (valid : String → Bool) (repo project directory : String) :
    analyzeProject os oracle role valid repo project directory =
      .ok (dirClosed os oracle role valid repo project directory) ∧
    (dirClosed os oracle role valid repo project directory).rows.length =
      ((((walkPairs os repo).filter fun rf => valid rf.2).map fun rf =>
        (singleResult oracle (os.disk (pathJoin rf.1 rf.2)) (pathJoin rf.1 rf.2)).keywords.length).sum) ∧
    (∀ row ∈ (dirClosed os oracle role valid repo project directory).rows,
      row.roleFlag = "Yes") := by
  refine ⟨analyzeProject_eq_ok os oracle role valid repo project directory, ?_, ?_⟩
  · rw [dirClosed_rows, List.length_flatMap]
    have hmap : ((walkPairs os repo).map
        (List.length ∘ fun rf => (pairContrib os oracle role valid project directory rf).rows)) =
        ((walkPairs os repo).map fun rf =>
          if valid rf.2 then
            (singleResult oracle (os.disk (pathJoin rf.1 rf.2)) (pathJoin rf.1 rf.2)).keywords.length
          else 0) := by
      refine List.map_congr_left fun rf _ => ?_
      simp only [Function.comp, pairContrib_rows]
      by_cases hv : valid rf.2 <;> simp [hv, fileRows]
    rw [hmap, sum_map_ite_filter]
  · intro row hrow
    rw [dirClosed_rows, List.mem_flatMap] at hrow
    obtain ⟨rf, _, hmem⟩ := hrow
    rw [pairContrib_rows] at hmem
    split at hmem
    · rw [fileRows, List.mem_map] at hmem
      obtain ⟨k, _, hk⟩ := hmem
      rw [← hk]
    · simp at hmem

/-- C4 witness: the row-count law instantiated on the concrete
environment (one qualifying file with one match, one rejected file). -/
theorem classification_row_count_witness :
    analyzeProject os1 oracle0 .producer valid0 "in/proj/comp" "proj" "comp" =
      .ok (dirClosed os1 oracle0 .producer valid0 "in/proj/comp" "proj" "comp") ∧
    (dirClosed os1 oracle0 .producer valid0 "in/proj/comp" "proj" "comp").rows.length = 1 := by
  have h := classification_row_count os1 oracle0 .producer valid0 "in/proj/comp" "proj" "comp"
  refine ⟨h.1, h.2.1.trans ?_⟩
  decide

theorem ite_append_ne_nil {α : Type} [DecidableEq α] (a l : List α) :
    (if l ≠ [] then a ++ l else a) = a ++ l := by
  by_cases h : l = [] <;> simp [h]

theorem innerDirStep_eq_ok (os : OsEnv) (oracle : Oracle) (role : AnalyzerRole)
    (valid : String → Bool) (projectPath project : String)
    (st : ProjState × List ClassificationRow) (dirPath : String) :
    innerDirStep os oracle role valid projectPath project st dirPath =
      .ok (innerStepPure os oracle role valid projectPath project st dirPath) := by
  unfold innerDirStep innerStepPure
  by_cases hd : os.isdir (pathJoin projectPath dirPath)
  · simp [hd, analyzeProject_eq_ok, Except.bind]
  · simp [hd, pure, Except.pure]

theorem foldl_inner_metrics (os : OsEnv) (oracle : Oracle) (valid : String → Bool)
    (projectPath project : String) :
    ∀ (subs : List String) (ps : ProjState) (rows : List ClassificationRow),
      subs.foldlM (innerDirStep os oracle .metrics valid projectPath project) (ps, rows) =
        .ok (⟨ps.projectCC ++ projCCClosed os oracle valid projectPath project subs,
              ps.projectMI ++ projMIClosed os oracle valid projectPath project subs,
              ps.projectSloc ++ projSlocClosed os oracle valid projectPath project subs⟩,
             rows ++ projRowsClosed os oracle .metrics valid projectPath project subs) := by
  intro subs
  induction subs with
  | nil =>
      intro ps rows
      simp [projCCClosed, projMIClosed, projSlocClosed, projRowsClosed, componentDirs,
        pure, Except.pure]
  | cons d t ih =>
      intro ps rows
      rw [List.foldlM_cons, innerDirStep_eq_ok]
      by_cases hd : os.isdir (pathJoin projectPath d)
      · have hstep : innerStepPure os oracle .metrics valid projectPath project (ps, rows) d =
            (⟨ps.projectCC ++
                (dirClosed os oracle .metrics valid (pathJoin projectPath d) project d).ccValues,
              ps.projectMI ++
                (dirClosed os oracle .metrics valid (pathJoin projectPath d) project d).miWeighted,
              ps.projectSloc ++
                (dirClosed os oracle .metrics valid (pathJoin projectPath d) project d).slocList⟩,
             rows ++ (dirClosed os oracle .metrics valid (pathJoin projectPath d) project d).rows) := by
          unfold innerStepPure
          simp [hd, ite_append_ne_nil]
        rw [show ((Except.ok (innerStepPure os oracle .metrics valid projectPath project
            (ps, rows) d) : Except PyErr _) >>= fun init =>
            t.foldlM (innerDirStep os oracle .metrics valid projectPath project) init) =
            t.foldlM (innerDirStep os oracle .metrics valid projectPath project)
              (innerStepPure os oracle .metrics valid projectPath project (ps, rows) d) from rfl]
        rw [hstep, ih]
        have hcomp : componentDirs os projectPath (d :: t) = d :: componentDirs os projectPath t :=
          List.filter_cons_of_pos hd
        simp [projCCClosed, projMIClosed, projSlocClosed, projRowsClosed, hcomp,
          List.flatMap_cons, List.append_assoc]
      · have hstep : innerStepPure os oracle .metrics valid projectPath project (ps, rows) d =
            (ps, rows) := by
          unfold innerStepPure
          simp [hd]
        rw [show ((Except.ok (innerStepPure os oracle .metrics valid projectPath project
            (ps, rows) d) : Except PyErr _) >>= fun init =>
            t.foldlM (innerDirStep os oracle .metrics valid projectPath project) init) =
            t.foldlM (innerDirStep os oracle .metrics valid projectPath project)
              (innerStepPure os oracle .metrics valid projectPath project (ps, rows) d) from rfl]
        rw [hstep, ih]
        have hcomp : componentDirs os projectPath (d :: t) = componentDirs os projectPath t := by
          unfold componentDirs
          rw [List.filter_cons_of_neg (by simp [hd])]
        simp [projCCClosed, projMIClosed, projSlocClosed, projRowsClosed, hcomp]

theorem foldl_outer_metrics (os : OsEnv) (oracle : Oracle) (valid : String → Bool)
    (inputFolder : String) (subs : String → List String)
    (hsubs : ∀ p, os.listdir (pathJoin inputFolder p) = .ok (subs p)) :
    ∀ (entries : List String) (rows0 : List ClassificationRow) (recs0 : List MetricsRecord),
      entries.foldlM (outerProjStep os oracle .metrics valid inputFolder) (rows0, recs0) =
        .ok (rows0 ++ runRowsClosed os oracle .metrics valid inputFolder entries subs,
             recs0 ++ runRecordsClosed os oracle valid inputFolder entries subs) := by
  intro entries
  induction entries with
  | nil =>
      intro rows0 recs0
      simp [runRowsClosed, runRecordsClosed, dirProjects, pure, Except.pure]
  | cons p t ih =>
      intro rows0 recs0
      rw [List.foldlM_cons]
      by_cases hp : os.isdir (pathJoin inputFolder p)
      · have hstep : outerProjStep os oracle .metrics valid inputFolder (rows0, recs0) p =
            .ok (rows0 ++
              projRowsClosed os oracle .metrics valid (pathJoin inputFolder p) p (subs p),
             recs0 ++ [projectRecord p
               (projCCClosed os oracle valid (pathJoin inputFolder p) p (subs p))
               (projMIClosed os oracle valid (pathJoin inputFolder p) p (subs p))
               (projSlocClosed os oracle valid (pathJoin inputFolder p) p (subs p))]) := by
          unfold outerProjStep
          rw [if_pos hp, hsubs p]
          rw [show ((Except.ok (subs p) : Except PyErr _) >>= fun subEntries => do
              let pst ← subEntries.foldlM
                (innerDirStep os oracle .metrics valid (pathJoin inputFolder p) p)
                (⟨[], [], []⟩, rows0)
              let metrics :=
                if AnalyzerRole.metrics = AnalyzerRole.metrics then
                  recs0 ++ [projectRecord p pst.1.projectCC pst.1.projectMI pst.1.projectSloc]
                else recs0
              pure (pst.2, metrics)) = (do
              let pst ← (subs p).foldlM
                (innerDirStep os oracle .metrics valid (pathJoin inputFolder p) p)
                (⟨[], [], []⟩, rows0)
              let metrics :=
                if AnalyzerRole.metrics = AnalyzerRole.metrics then
                  recs0 ++ [projectRecord p pst.1.projectCC pst.1.projectMI pst.1.projectSloc]
                else recs0
              pure (pst.2, metrics)) from rfl]
          rw [foldl_inner_metrics]
          rfl
        rw [hstep]
        rw [show ((Except.ok (rows0 ++
              projRowsClosed os oracle .metrics valid (pathJoin inputFolder p) p (subs p),
             recs0 ++ [projectRecord p
               (projCCClosed os oracle valid (pathJoin inputFolder p) p (subs p))
               (projMIClosed os oracle valid (pathJoin inputFolder p) p (subs p))
               (projSlocClosed os oracle valid (pathJoin inputFolder p) p (subs p))]) :
             Except PyErr _) >>= fun init =>
            t.foldlM (outerProjStep os oracle .metrics valid inputFolder) init) =
            t.foldlM (outerProjStep os oracle .metrics valid inputFolder)
              (rows0 ++
                projRowsClosed os oracle .metrics valid (pathJoin inputFolder p) p (subs p),
               recs0 ++ [projectRecord p
                 (projCCClosed os oracle valid (pathJoin inputFolder p) p (subs p))
                 (projMIClosed os oracle valid (pathJoin inputFolder p) p (subs p))
                 (projSlocClosed os oracle valid (pathJoin inputFolder p) p (subs p))]) from rfl]
        rw [ih]
        have hdp : dirProjects os inputFolder (p :: t) = p :: dirProjects os inputFolder t :=
          List.filter_cons_of_pos hp
        simp [runRowsClosed, runRecordsClosed, hdp, List.flatMap_cons, List.append_assoc]
      · have hstep : outerProjStep os oracle .metrics valid inputFolder (rows0, recs0) p =
            .ok (rows0, recs0) := by
          unfold outerProjStep
          rw [if_neg hp]
          rfl
        rw [hstep]
        rw [show ((Except.ok ((rows0, recs0)) : Except PyErr _) >>= fun init =>
            t.foldlM (outerProjStep os oracle .metrics valid inputFolder) init) =
            t.foldlM (outerProjStep os oracle .metrics valid inputFolder) (rows0, recs0) from rfl]
        rw [ih]
        have hdp : dirProjects os inputFolder (p :: t) = dirProjects os inputFolder t := by
          unfold dirProjects
          rw [List.filter_cons_of_neg (by simp [hp])]
        simp [runRowsClosed, runRecordsClosed, hdp]

theorem analyzeProjectsSet_metrics_closed (os : OsEnv) (oracle : Oracle)
    (valid : String → Bool) (inputFolder : String) (entries : List String)
    (subs : String → List String)
    (h1 : os.listdir inputFolder = .ok entries)
    (hsubs : ∀ p, os.listdir (pathJoin inputFolder p) = .ok (subs p)) :
    analyzeProjectsSet os oracle .metrics valid inputFolder =
      .ok ⟨runRowsClosed os oracle .metrics valid inputFolder entries subs,
           runRecordsClosed os oracle valid inputFolder entries subs,
           saveMetricsCsv .metrics (runRecordsClosed os oracle valid inputFolder entries subs)
             os.metricsListing⟩ := by
  unfold analyzeProjectsSet
  rw [h1]
  rw [show ((Except.ok entries : Except PyErr _) >>= fun entries => do
      let st ← entries.foldlM (outerProjStep os oracle .metrics valid inputFolder) ([], [])
      pure (⟨st.1, st.2, saveMetricsCsv .metrics st.2 os.metricsListing⟩ : RunResult)) = (do
      let st ← entries.foldlM (outerProjStep os oracle .metrics valid inputFolder) ([], [])
      pure (⟨st.1, st.2, saveMetricsCsv .metrics st.2 os.metricsListing⟩ : RunResult)) from rfl]
  rw [foldl_outer_metrics os oracle valid inputFolder subs hsubs entries [] []]
  rfl

theorem projClosed_lockstep (os : OsEnv) (oracle : Oracle) (valid : String → Bool)
    (projectPath project : String) (subs : List String) :
    projSlocClosed os oracle valid projectPath project subs =
      (projMIClosed os oracle valid projectPath project subs).map (·.2) := by
  unfold projSlocClosed projMIClosed
  rw [List.map_flatMap]
  exact List.flatMap_congr fun d _ => dirClosed_lockstep os oracle .metrics valid
    (pathJoin projectPath d) project d

theorem projMIClosed_pos (os : OsEnv) (oracle : Oracle) (valid : String → Bool)
    (projectPath project : String) (subs : List String) :
    ∀ pr ∈ projMIClosed os oracle valid projectPath project subs, 0 < pr.2 := by
  intro pr hpr
  unfold projMIClosed at hpr
  rw [List.mem_flatMap] at hpr
  obtain ⟨d, _, hmem⟩ := hpr
  exact dirClosed_mi_pos os oracle .metrics valid (pathJoin projectPath d) project d pr hmem

theorem round2_zero : round2 0 = 0 := by
  simp [round2]

theorem projectRecord_miAvg (project : String) (cc : List ℤ) (mi : List (ℚ × ℕ))
    (sloc : List ℕ) (hlock : sloc = mi.map (·.2)) (hpos : ∀ pr ∈ mi, 0 < pr.2) :
    (projectRecord project cc mi sloc).miAvg =
      if mi = [] then 0
      else round2 ((mi.map fun pr => pr.1 * (pr.2 : ℚ)).sum /
        (mi.map fun pr => ((pr.2 : ℕ) : ℚ)).sum) := by
  subst hlock
  unfold projectRecord
  by_cases hmi : mi = []
  · subst hmi
    simp [round2]
  · have hpos' : ∀ x ∈ mi.map (·.2), 0 < x := by
      intro x hx
      rw [List.mem_map] at hx
      obtain ⟨pr, hpr, hx⟩ := hx
      exact hx ▸ hpos pr hpr
    have hsum : 0 < (mi.map (·.2)).sum :=
      List.sum_pos _ hpos' (by simp [hmi])
    have hcast : (((mi.map (·.2)).sum : ℕ) : ℚ) = (mi.map fun pr => ((pr.2 : ℕ) : ℚ)).sum := by
      rw [Nat.cast_list_sum, List.map_map]
      rfl
    simp only [projectRecord]
    rw [if_neg hmi, if_pos hsum, hcast]

theorem projectRecord_ccAvg (project : String) (cc : List ℤ) (mi : List (ℚ × ℕ))
    (sloc : List ℕ) :
    (projectRecord project cc mi sloc).ccAvg =
      if cc = [] then 0 else round2 ((cc.sum : ℚ) / cc.length) := by
  unfold projectRecord
  by_cases hcc : cc = [] <;> simp [hcc, round2]

/-- C2: under the Metrics role the run's per-project records are exactly
the closed-form aggregation, whose `MI_avg` is the source-line weighted
mean `round(Σ(mi·sloc) / Σ(sloc), 2)` over exactly the pairs collected
from files with a positive source-line count (a zero-SLOC file
contributes to neither numerator nor denominator), `0` when no pairs
exist, and the example pairs `[(100, 2), (71.89, 8)]` yield `77.51`. -/
theorem mi_avg_weighted_mean (os : OsEnv) (oracle : Oracle) (valid : String → Bool)
    (inputFolder : String) (entries : List String) (subs : String → List String)
    (h1 : os.listdir inputFolder = .ok entries)
    (hsubs : ∀ p, os.listdir (pathJoin inputFolder p) = .ok (subs p)) :
    (analyzeProjectsSet os oracle .metrics valid inputFolder =
      .ok ⟨runRowsClosed os oracle .metrics valid inputFolder entries subs,
           runRecordsClosed os oracle valid inputFolder entries subs,
           saveMetricsCsv .metrics (runRecordsClosed os oracle valid inputFolder entries subs)
             os.metricsListing⟩) ∧
    (∀ p ∈ dirProjects os inputFolder entries,
      (∀ pr ∈ projMIClosed os oracle valid (pathJoin inputFolder p) p (subs p), 0 < pr.2) ∧
      (projectRecord p (projCCClosed os oracle valid (pathJoin inputFolder p) p (subs p))
          (projMIClosed os oracle valid (pathJoin inputFolder p) p (subs p))
          (projSlocClosed os oracle valid (pathJoin inputFolder p) p (subs p))).miAvg =
        (if projMIClosed os oracle valid (pathJoin inputFolder p) p (subs p) = [] then 0
         else round2
           (((projMIClosed os oracle valid (pathJoin inputFolder p) p (subs p)).map
              fun pr => pr.1 * (pr.2 : ℚ)).sum /
            ((projMIClosed os oracle valid (pathJoin inputFolder p) p (subs p)).map
              fun pr => ((pr.2 : ℕ) : ℚ)).sum))) ∧
    (∀ (project directory : String) (rf : String × String),
      (singleResult oracle (os.disk (pathJoin rf.1 rf.2)) (pathJoin rf.1 rf.2)).slocVal = 0 →
      (pairContrib os oracle .metrics valid project directory rf).miWeighted = [] ∧
      (pairContrib os oracle .metrics valid project directory rf).slocList = []) ∧
    (projectRecord "P" [] [(100, 2), (7189/100, 8)] [2, 8]).miAvg = 7751/100 := by
  refine ⟨analyzeProjectsSet_metrics_closed os oracle valid inputFolder entries subs h1 hsubs,
    ?_, ?_, ?_⟩
  · intro p _
    refine ⟨projMIClosed_pos os oracle valid (pathJoin inputFolder p) p (subs p), ?_⟩
    exact projectRecord_miAvg p _ _ _
      (projClosed_lockstep os oracle valid (pathJoin inputFolder p) p (subs p))
      (projMIClosed_pos os oracle valid (pathJoin inputFolder p) p (subs p))
  · intro project directory rf hz
    constructor
    · rw [pairContrib_miWeighted, if_neg]
      simp [hz]
    · rw [pairContrib_slocList, pairContrib_miWeighted, if_neg]
      · rfl
      · simp [hz]
  · rw [projectRecord_miAvg "P" [] [(100, 2), (7189/100, 8)] [2, 8] (by decide) (by decide)]
    rw [if_neg (by decide : ¬([(100, 2), ((7189:ℚ)/100, 8)] : List (ℚ × ℕ)) = [])]
    norm_num [round2, round_eq, List.map_cons, List.map_nil, List.sum_cons, List.sum_nil]

/-- C2 witness: the run closed form instantiated on the concrete
environment. -/
theorem mi_avg_weighted_mean_witness :
    analyzeProjectsSet os1 oracle0 .metrics valid0 "in" =
      .ok ⟨runRowsClosed os1 oracle0 .metrics valid0 "in" (os1entries "in")
            (fun p => os1entries (pathJoin "in" p)),
           runRecordsClosed os1 oracle0 valid0 "in" (os1entries "in")
            (fun p => os1entries (pathJoin "in" p)),
           saveMetricsCsv .metrics
            (runRecordsClosed os1 oracle0 valid0 "in" (os1entries "in")
              (fun p => os1entries (pathJoin "in" p)))
            os1.metricsListing⟩ :=
  (mi_avg_weighted_mean os1 oracle0 valid0 "in" (os1entries "in")
    (fun p => os1entries (pathJoin "in" p)) rfl (fun _ => rfl)).1

/-- C3: under the Metrics role the per-project `CC_avg` is the rounded
arithmetic mean over all complexity blocks collected anywhere in the
project — blocks are collected for every qualifying file regardless of
its source-line count — `0` when no blocks were collected, and the
example block scores `[1, 2, 2]` yield `1.67`. -/
theorem cc_avg_unweighted_mean (os : OsEnv) (oracle : Oracle) (valid : String → Bool)
    (inputFolder : String) (entries : List String) (subs : String → List String)
    (h1 : os.listdir inputFolder = .ok entries)
    (hsubs : ∀ p, os.listdir (pathJoin inputFolder p) = .ok (subs p)) :
    (analyzeProjectsSet os oracle .metrics valid inputFolder =
      .ok ⟨runRowsClosed os oracle .metrics valid inputFolder entries subs,
           runRecordsClosed os oracle valid inputFolder entries subs,
           saveMetricsCsv .metrics (runRecordsClosed os oracle valid inputFolder entries subs)
             os.metricsListing⟩) ∧
    (∀ p ∈ dirProjects os inputFolder entries,
      (projectRecord p (projCCClosed os oracle valid (pathJoin inputFolder p) p (subs p))
          (projMIClosed os oracle valid (pathJoin inputFolder p) p (subs p))
          (projSlocClosed os oracle valid (pathJoin inputFolder p) p (subs p))).ccAvg =
        (if projCCClosed os oracle valid (pathJoin inputFolder p) p (subs p) = [] then 0
         else round2
           (((projCCClosed os oracle valid (pathJoin inputFolder p) p (subs p)).sum : ℚ) /
            (projCCClosed os oracle valid (pathJoin inputFolder p) p (subs p)).length))) ∧
    (∀ (project directory : String) (rf : String × String), valid rf.2 = true →
      (pairContrib os oracle .metrics valid project directory rf).ccValues =
        ((singleResult oracle (os.disk (pathJoin rf.1 rf.2)) (pathJoin rf.1 rf.2)).ccBlocks.map
          (·.complexity))) ∧
    (projectRecord "P" [1, 2, 2] [] []).ccAvg = 167/100 := by
  refine ⟨analyzeProjectsSet_metrics_closed os oracle valid inputFolder entries subs h1 hsubs,
    ?_, ?_, ?_⟩
  · intro p _
    exact projectRecord_ccAvg p _ _ _
  · intro project directory rf hv
    rw [pairContrib_ccValues, if_pos ⟨hv, rfl⟩]
  · rw [projectRecord_ccAvg]
    rw [if_neg (by decide : ¬([1, 2, 2] : List ℤ) = [])]
    norm_num [round2, round_eq, List.sum_cons, List.sum_nil]

/-- C3 witness: the run closed form instantiated on the concrete
environment. -/
theorem cc_avg_unweighted_mean_witness :
    analyzeProjectsSet os1 oracle0 .metrics valid0 "in" =
      .ok ⟨runRowsClosed os1 oracle0 .metrics valid0 "in" (os1entries "in")
            (fun p => os1entries (pathJoin "in" p)),
           runRecordsClosed os1 oracle0 valid0 "in" (os1entries "in")
            (fun p => os1entries (pathJoin "in" p)),
           saveMetricsCsv .metrics
            (runRecordsClosed os1 oracle0 valid0 "in" (os1entries "in")
              (fun p => os1entries (pathJoin "in" p)))
            os1.metricsListing⟩ ∧
    (projectRecord "P" [1, 2, 2] [] []).ccAvg = 167/100 :=
  ⟨(cc_avg_unweighted_mean os1 oracle0 valid0 "in" (os1entries "in")
      (fun p => os1entries (pathJoin "in" p)) rfl (fun _ => rfl)).1,
   (cc_avg_unweighted_mean os1 oracle0 valid0 "in" (os1entries "in")
      (fun p => os1entries (pathJoin "in" p)) rfl (fun _ => rfl)).2.2.2⟩

theorem foldlM_filter_skip {α β ε : Type} (g : β → α → Except ε β) (p : α → Bool)
    (h : ∀ b a, p a = false → g b a = .ok b) :
    ∀ (l : List α) (init : β), l.foldlM g init = (l.filter p).foldlM g init := by
  intro l
  induction l with
  | nil => intro init; rfl
  | cons a t ih =>
      intro init
      by_cases hp : p a
      · rw [List.filter_cons_of_pos hp, List.foldlM_cons, List.foldlM_cons]
        cases hg : g init a with
        | error e => rfl
        | ok b =>
            rw [show ((Except.ok b : Except ε β) >>= fun init => t.foldlM g init) =
              t.foldlM g b from rfl,
              show ((Except.ok b : Except ε β) >>= fun init => (t.filter p).foldlM g init) =
              (t.filter p).foldlM g b from rfl, ih]
      · rw [List.filter_cons_of_neg (by simp [hp]), List.foldlM_cons,
          h init a (by simp [hp])]
        rw [show ((Except.ok init : Except ε β) >>= fun init => t.foldlM g init) =
          t.foldlM g init from rfl, ih]

theorem foldlM_ok_exists {α β ε : Type} (g : β → α → Except ε β) :
    ∀ l : List α, (∀ b, ∀ a ∈ l, ∃ c, g b a = .ok c) →
      ∀ init, ∃ r, l.foldlM g init = .ok r := by
  intro l
  induction l with
  | nil => intro _ init; exact ⟨init, rfl⟩
  | cons a t ih =>
      intro h init
      obtain ⟨c, hc⟩ := h init a (List.mem_cons_self a t)
      obtain ⟨r, hr⟩ := ih (fun b x hx => h b x (List.mem_cons_of_mem _ hx)) c
      refine ⟨r, ?_⟩
      rw [List.foldlM_cons, hc]
      rw [show ((Except.ok c : Except ε β) >>= fun init => t.foldlM g init) =
        t.foldlM g c from rfl]
      exact hr

theorem outerProjStep_skip (os : OsEnv) (oracle : Oracle) (role : AnalyzerRole)
    (valid : String → Bool) (inputFolder : String)
    (st : List ClassificationRow × List MetricsRecord) (project : String)
    (h : os.isdir (pathJoin inputFolder project) = false) :
    outerProjStep os oracle role valid inputFolder st project = .ok st := by
  unfold outerProjStep
  rw [if_neg (by simp [h])]
  rfl

theorem innerDirStep_skip (os : OsEnv) (oracle : Oracle) (role : AnalyzerRole)
    (valid : String → Bool) (projectPath project : String)
    (st : ProjState × List ClassificationRow) (dirPath : String)
    (h : os.isdir (pathJoin projectPath dirPath) = false) :
    innerDirStep os oracle role valid projectPath project st dirPath = .ok st := by
  unfold innerDirStep
  rw [if_neg (by simp [h])]
  rfl

theorem outerProjStep_ok (os : OsEnv) (oracle : Oracle) (role : AnalyzerRole)
    (valid : String → Bool) (inputFolder : String)
    (st : List ClassificationRow × List MetricsRecord) (project : String)
    (hsub : os.isdir (pathJoin inputFolder project) = true →
      ∃ l, os.listdir (pathJoin inputFolder project) = .ok l) :
    ∃ c, outerProjStep os oracle role valid inputFolder st project = .ok c := by
  by_cases hp : os.isdir (pathJoin inputFolder project)
  · obtain ⟨l, hl⟩ := hsub hp
    obtain ⟨pst, hpst⟩ := foldlM_ok_exists
      (innerDirStep os oracle role valid (pathJoin inputFolder project) project) l
      (fun b a _ => ⟨innerStepPure os oracle role valid (pathJoin inputFolder project)
          project b a,
        innerDirStep_eq_ok os oracle role valid (pathJoin inputFolder project) project b a⟩)
      (⟨[], [], []⟩, st.1)
    refine ⟨(pst.2,
      if role = AnalyzerRole.metrics then
        st.2 ++ [projectRecord project pst.1.projectCC pst.1.projectMI pst.1.projectSloc]
      else st.2), ?_⟩
    unfold outerProjStep
    rw [if_pos hp, hl]
    rw [show ((Except.ok l : Except PyErr _) >>= fun subEntries => do
        let pst ← subEntries.foldlM
          (innerDirStep os oracle role valid (pathJoin inputFolder project) project)
          (⟨[], [], []⟩, st.1)
        let metrics :=
          if role = AnalyzerRole.metrics then
            st.2 ++ [projectRecord project pst.1.projectCC pst.1.projectMI pst.1.projectSloc]
          else st.2
        pure (pst.2, metrics)) = (do
        let pst ← l.foldlM
          (innerDirStep os oracle role valid (pathJoin inputFolder project) project)
          (⟨[], [], []⟩, st.1)
        let metrics :=
          if role = AnalyzerRole.metrics then
            st.2 ++ [projectRecord project pst.1.projectCC pst.1.projectMI pst.1.projectSloc]
          else st.2
        pure (pst.2, metrics)) from rfl]
    rw [hpst]
    rfl
  · exact ⟨st, outerProjStep_skip os oracle role valid inputFolder st project (by simpa using hp)⟩

/-- C8: when the input root does not exist, the OS `listdir` raises a
not-found error which `analyze_projects_set` propagates unchanged to the
caller before any directory is walked (the result is an `.error`
regardless of walks, disks and oracles); otherwise non-directory entries
at the project-set root and inside each project are silently skipped
(folding over the entries equals folding over only the directory
entries), and when the remaining listings succeed the whole run completes
with an `.ok` result. -/
theorem missing_input_aborts (os : OsEnv) (oracle : Oracle) (role : AnalyzerRole)
    (valid : String → Bool) (inputFolder : String) (entries : List String) :
    (∀ e, os.listdir inputFolder = .error e →
      analyzeProjectsSet os oracle role valid inputFolder = .error e) ∧
    (entries.foldlM (outerProjStep os oracle role valid inputFolder) ([], []) =
      (entries.filter fun p => os.isdir (pathJoin inputFolder p)).foldlM
        (outerProjStep os oracle role valid inputFolder) ([], [])) ∧
    (∀ (projectPath project : String) (subs : List String)
        (st : ProjState × List ClassificationRow),
      subs.foldlM (innerDirStep os oracle role valid projectPath project) st =
        (subs.filter fun d => os.isdir (pathJoin projectPath d)).foldlM
          (innerDirStep os oracle role valid projectPath project) st) ∧
    (os.listdir inputFolder = .ok entries →
      (∀ p ∈ entries, os.isdir (pathJoin inputFolder p) = true →
        ∃ l, os.listdir (pathJoin inputFolder p) = .ok l) →
      ∃ r, analyzeProjectsSet os oracle role valid inputFolder = .ok r) := by
  refine ⟨?_, ?_, ?_, ?_⟩
  · intro e he
    unfold analyzeProjectsSet
    rw [he]
    rfl
  · exact foldlM_filter_skip _ _
      (fun st p hp => outerProjStep_skip os oracle role valid inputFolder st p hp) entries ([], [])
  · intro projectPath project subs st
    exact foldlM_filter_skip _ _
      (fun st d hd => innerDirStep_skip os oracle role valid projectPath project st d hd) subs st
  · intro h1 h2
    obtain ⟨st, hst⟩ := foldlM_ok_exists (outerProjStep os oracle role valid inputFolder)
      entries (fun b a ha => outerProjStep_ok os oracle role valid inputFolder b a (h2 a ha))
      ([], [])
    refine ⟨⟨st.1, st.2, saveMetricsCsv role st.2 os.metricsListing⟩, ?_⟩
    unfold analyzeProjectsSet
    rw [h1]
    rw [show ((Except.ok entries : Except PyErr _) >>= fun entries => do
        let st ← entries.foldlM (outerProjStep os oracle role valid inputFolder) ([], [])
        pure (⟨st.1, st.2, saveMetricsCsv role st.2 os.metricsListing⟩ : RunResult)) = (do
        let st ← entries.foldlM (outerProjStep os oracle role valid inputFolder) ([], [])
        pure (⟨st.1, st.2, saveMetricsCsv role st.2 os.metricsListing⟩ : RunResult)) from rfl]
    rw [hst]
    rfl

/-- C8 witness: a missing root aborts with the not-found error on a
concrete environment; an existing root with a stray non-directory entry
completes. -/
theorem missing_input_aborts_witness :
    analyzeProjectsSet osMissing oracle0 .producer valid0 "in" =
      .error (.fileNotFound "in") ∧
    (∃ r, analyzeProjectsSet os1 oracle0 .producer valid0 "in" = .ok r) := by
  constructor
  · exact (missing_input_aborts osMissing oracle0 .producer valid0 "in" []).1
      (.fileNotFound "in") rfl
  · exact (missing_input_aborts os1 oracle0 .producer valid0 "in" (os1entries "in")).2.2.2
      rfl (fun p _ _ => ⟨os1entries (pathJoin "in" p), rfl⟩)

/-- C10: the metrics-saving step writes no file when the role is not
Metrics or when the accumulator is empty; in particular a run over a root
with no project subdirectories accumulates no metrics and writes
nothing, whatever the metrics directory already contains. -/
theorem metrics_save_skip :
    (∀ (role : AnalyzerRole) (m : List MetricsRecord) (listing : List (List Char)),
      role ≠ AnalyzerRole.metrics → saveMetricsCsv role m listing = none) ∧
    (∀ (role : AnalyzerRole) (listing : List (List Char)),
      saveMetricsCsv role [] listing = none) ∧
    (∀ (os : OsEnv) (oracle : Oracle) (role : AnalyzerRole) (valid : String → Bool)
        (inputFolder : String) (entries : List String),
      os.listdir inputFolder = .ok entries →
      (∀ p ∈ entries, os.isdir (pathJoin inputFolder p) = false) →
      analyzeProjectsSet os oracle role valid inputFolder = .ok ⟨[], [], none⟩) := by
  refine ⟨?_, ?_, ?_⟩
  · intro role m listing hrole
    unfold saveMetricsCsv
    rw [if_pos hrole]
  · intro role listing
    unfold saveMetricsCsv
    by_cases hrole : role = AnalyzerRole.metrics
    · rw [if_neg (by simp [hrole]), if_pos rfl]
    · rw [if_pos hrole]
  · intro os oracle role valid inputFolder entries h1 h2
    unfold analyzeProjectsSet
    rw [h1]
    rw [show ((Except.ok entries : Except PyErr _) >>= fun entries => do
        let st ← entries.foldlM (outerProjStep os oracle role valid inputFolder) ([], [])
        pure (⟨st.1, st.2, saveMetricsCsv role st.2 os.metricsListing⟩ : RunResult)) = (do
        let st ← entries.foldlM (outerProjStep os oracle role valid inputFolder) ([], [])
        pure (⟨st.1, st.2, saveMetricsCsv role st.2 os.metricsListing⟩ : RunResult)) from rfl]
    rw [foldlM_filter_skip _ _
      (fun st p hp => outerProjStep_skip os oracle role valid inputFolder st p hp) entries ([], [])]
    rw [show (entries.filter fun p => os.isdir (pathJoin inputFolder p)) = [] from
      List.filter_eq_nil_iff.mpr (by intro a ha; simp [h2 a ha])]
    rw [show (([] : List String).foldlM (outerProjStep os oracle role valid inputFolder)
      (([], []) : List ClassificationRow × List MetricsRecord)) =
      .ok ([], []) from rfl]
    have hnone : saveMetricsCsv role [] os.metricsListing = none := by
      unfold saveMetricsCsv
      by_cases hrole : role = AnalyzerRole.metrics
      · rw [if_neg (by simp [hrole]), if_pos rfl]
      · rw [if_pos hrole]
    rw [show ((Except.ok (([], []) : List ClassificationRow × List MetricsRecord) :
        Except PyErr _) >>= fun st =>
        (pure (⟨st.1, st.2, saveMetricsCsv role st.2 os.metricsListing⟩ : RunResult) :
          Except PyErr RunResult)) =
      .ok ⟨[], [], saveMetricsCsv role [] os.metricsListing⟩ from rfl]
    rw [hnone]

/-- C10 witness: a run over a root containing only a stray file writes no
metrics file even though the role is Metrics. -/
theorem metrics_save_skip_witness :
    analyzeProjectsSet osNoDirs oracle0 .metrics valid0 "in" = .ok ⟨[], [], none⟩ ∧
    saveMetricsCsv .producer [rec0] [] = none := by
  constructor
  · exact metrics_save_skip.2.2 osNoDirs oracle0 .metrics valid0 "in" ["f.txt"] rfl
      (by intro p _; rfl)
  · exact metrics_save_skip.1 .producer [rec0] [] (by decide)

theorem digitChar_lt10 (d : ℕ) (h : d < 10) :
    (digitChar d).isDigit = true ∧ digitChar d ≠ '_' ∧ (digitChar d).toNat = 48 + d := by
  interval_cases d <;> exact ⟨by decide, by decide, by decide⟩

theorem pyIntNat_append (a : List Char) (c : Char) :
    pyIntNat (a ++ [c]) = 10 * pyIntNat a + (c.toNat - 48) := by
  unfold pyIntNat
  rw [List.foldl_append]
  rfl

theorem natToDecimalAux_spec :
    ∀ fuel n : ℕ, n < fuel →
      natToDecimalAux fuel n ≠ [] ∧
      (∀ c ∈ natToDecimalAux fuel n, c.isDigit = true ∧ c ≠ '_') ∧
      pyIntNat (natToDecimalAux fuel n) = n := by
  intro fuel
  induction fuel with
  | zero => intro n hn; omega
  | succ f ih =>
      intro n hn
      unfold natToDecimalAux
      by_cases h10 : n < 10
      · rw [if_pos h10]
        obtain ⟨hd1, hd2, hd3⟩ := digitChar_lt10 n h10
        refine ⟨by simp, ?_, ?_⟩
        · intro c hc
          rw [List.mem_singleton] at hc
          subst hc
          exact ⟨hd1, hd2⟩
        · unfold pyIntNat
          simp only [List.foldl_cons, List.foldl_nil]
          rw [hd3]
          omega
      · rw [if_neg h10]
        have hlt : n / 10 < f := by omega
        obtain ⟨ih1, ih2, ih3⟩ := ih (n / 10) hlt
        obtain ⟨hd1, hd2, hd3⟩ := digitChar_lt10 (n % 10) (Nat.mod_lt n (by omega))
        refine ⟨by simp, ?_, ?_⟩
        · intro c hc
          rw [List.mem_append] at hc
          rcases hc with hc | hc
          · exact ih2 c hc
          · rw [List.mem_singleton] at hc
            subst hc
            exact ⟨hd1, hd2⟩
        · rw [pyIntNat_append, ih3, hd3]
          omega

theorem natToDecimal_spec (n : ℕ) :
    natToDecimal n ≠ [] ∧ (∀ c ∈ natToDecimal n, c.isDigit = true ∧ c ≠ '_') ∧
    pyIntNat (natToDecimal n) = n :=
  natToDecimalAux_spec (n + 1) n (by omega)

theorem takeWhile_append_stop (r : List Char) :
    ∀ a : List Char, (∀ c ∈ a, c ≠ '_') →
      (a ++ '_' :: r).takeWhile (fun c => c != '_') = a := by
  intro a
  induction a with
  | nil =>
      intro _
      simp [List.takeWhile_cons]
  | cons c t ih =>
      intro ha
      have hc : c ≠ '_' := ha c (List.mem_cons_self c t)
      rw [List.cons_append, List.takeWhile_cons, if_pos (by simp [hc])]
      rw [ih fun x hx => ha x (List.mem_cons_of_mem _ hx)]

theorem metricsTail_eq : metricsTail = '_' :: ("metrics.csv").toList := by decide

theorem firstField_written (j : ℕ) :
    firstField (natToDecimal j ++ metricsTail) = natToDecimal j := by
  unfold firstField
  rw [metricsTail_eq]
  exact takeWhile_append_stop _ (natToDecimal j) fun c hc => ((natToDecimal_spec j).2.1 c hc).2

theorem isSuffixOf_self_append (a s : List Char) : s.isSuffixOf (a ++ s) = true := by
  rw [List.isSuffixOf_iff_suffix]
  exact List.suffix_append a s

theorem pyIsDigit_natToDecimal (j : ℕ) : pyIsDigit (natToDecimal j) = true := by
  unfold pyIsDigit
  obtain ⟨h1, h2, _⟩ := natToDecimal_spec j
  rw [Bool.and_eq_true]
  constructor
  · cases h : natToDecimal j with
    | nil => exact absurd h h1
    | cons c t => simp
  · rw [List.all_eq_true]
    intro c hc
    exact (h2 c hc).1

theorem isIndexedMetricsFile_written (j : ℕ) :
    isIndexedMetricsFile (natToDecimal j ++ metricsTail) = true := by
  unfold isIndexedMetricsFile
  rw [isSuffixOf_self_append, firstField_written, pyIsDigit_natToDecimal]
  rfl

theorem pyIntNat_firstField_written (j : ℕ) :
    pyIntNat (firstField (natToDecimal j ++ metricsTail)) = j := by
  rw [firstField_written]
  exact (natToDecimal_spec j).2.2

theorem init_le_foldl_max : ∀ (l : List ℕ) (a : ℕ), a ≤ l.foldl max a := by
  intro l
  induction l with
  | nil => intro a; exact le_refl a
  | cons x t ih => intro a; exact le_trans (le_max_left a x) (ih (max a x))

theorem mem_le_foldl_max : ∀ (l : List ℕ) (a v : ℕ), v ∈ l → v ≤ l.foldl max a := by
  intro l
  induction l with
  | nil => intro a v hv; cases hv
  | cons x t ih =>
      intro a v hv
      rcases List.mem_cons.mp hv with h | h
      · subst h
        exact le_trans (le_max_right a v) (init_le_foldl_max t (max a v))
      · exact ih (max a x) v h

theorem saveMetricsCsv_no_overwrite (m : List MetricsRecord) (listing : List (List Char))
    (s : SavedCsv) (hs : saveMetricsCsv .metrics m listing = some s) :
    s.fileName ∉ listing := by
  unfold saveMetricsCsv at hs
  rw [if_neg (by simp)] at hs
  by_cases hm : m = []
  · rw [if_pos hm] at hs
    exact absurd hs (by simp)
  · rw [if_neg hm] at hs
    have hname : s.fileName = natToDecimal (nextMetricsIndex listing) ++ metricsTail := by
      have h := Option.some.inj hs
      rw [← h]
    intro hmem
    have hmatch : s.fileName ∈ listing.filter isIndexedMetricsFile := by
      rw [List.mem_filter]
      exact ⟨hmem, by rw [hname]; exact isIndexedMetricsFile_written _⟩
    have hne : listing.filter isIndexedMetricsFile ≠ [] := by
      intro h0
      rw [h0] at hmatch
      cases hmatch
    have hmem' : pyIntNat (firstField s.fileName) ∈
        (listing.filter isIndexedMetricsFile).map fun f => pyIntNat (firstField f) :=
      List.mem_map_of_mem _ hmatch
    have hle := mem_le_foldl_max _ 0 _ hmem'
    have hval : pyIntNat (firstField s.fileName) = nextMetricsIndex listing := by
      rw [hname]
      exact pyIntNat_firstField_written _
    have hnext : nextMetricsIndex listing =
        ((listing.filter isIndexedMetricsFile).map fun f =>
          pyIntNat (firstField f)).foldl max 0 + 1 := by
      simp only [nextMetricsIndex]
      rw [if_pos hne]
    omega

theorem foldl_max_range (N : ℕ) :
    (((List.range N).map fun i => i + 1).foldl max 0) = N := by
  induction N with
  | zero => rfl
  | succ k ih =>
      rw [List.range_succ, List.map_append, List.foldl_append, ih]
      simp only [List.map_cons, List.map_nil, List.foldl_cons, List.foldl_nil]
      omega

theorem iterateSaves_law (m : List MetricsRecord) (hm : m ≠ []) (listing : List (List Char))
    (hl : listing.filter isIndexedMetricsFile = []) :
    ∀ N, iterateSaves .metrics m listing N =
      listing ++ (List.range N).map fun i => natToDecimal (i + 1) ++ metricsTail := by
  intro N
  induction N with
  | zero => simp [iterateSaves]
  | succ k ih =>
      have hfilter : ((listing ++ (List.range k).map fun i =>
          natToDecimal (i + 1) ++ metricsTail).filter isIndexedMetricsFile) =
          (List.range k).map fun i => natToDecimal (i + 1) ++ metricsTail := by
        rw [List.filter_append, hl, List.nil_append]
        apply List.filter_eq_self.mpr
        intro a ha
        rw [List.mem_map] at ha
        obtain ⟨i, _, hi⟩ := ha
        rw [← hi]
        exact isIndexedMetricsFile_written (i + 1)
      have hnext : nextMetricsIndex (listing ++ (List.range k).map fun i =>
          natToDecimal (i + 1) ++ metricsTail) = k + 1 := by
        simp only [nextMetricsIndex]
        rw [hfilter]
        by_cases hk : k = 0
        · subst hk
          rfl
        · rw [if_pos (by simp [List.range_eq_nil, hk])]
          have hmap : (((List.range k).map fun i => natToDecimal (i + 1) ++ metricsTail).map
              fun f => pyIntNat (firstField f)) = (List.range k).map fun i => i + 1 := by
            rw [List.map_map]
            exact List.map_congr_left fun i _ => pyIntNat_firstField_written (i + 1)
          rw [hmap, foldl_max_range]
      have hsave : saveMetricsCsv .metrics m (listing ++ (List.range k).map fun i =>
          natToDecimal (i + 1) ++ metricsTail) =
          some ⟨natToDecimal (k + 1) ++ metricsTail, m⟩ := by
        unfold saveMetricsCsv
        rw [if_neg (by simp), if_neg hm, hnext]
      simp only [iterateSaves]
      rw [ih, hsave, List.range_succ, List.map_append]
      simp [List.append_assoc]

/-- C6 counterexample: the claim's scan pattern "{integer}_metrics.csv"
disagrees with the code's filter on the listing `["5_extra_metrics.csv"]`
— the code counts that name (writing "6_metrics.csv") while the claimed
exact-pattern scan does not (it would write "1_metrics.csv"). -/
theorem metrics_versioning_counterexample :
    (saveMetricsCsv .metrics [rec0] [("5_extra_metrics.csv").toList]).map SavedCsv.fileName =
      some (("6_metrics.csv").toList) ∧
    (specSaveMetricsCsv .metrics [rec0] [("5_extra_metrics.csv").toList]).map SavedCsv.fileName =
      some (("1_metrics.csv").toList) ∧
    saveMetricsCsv .metrics [rec0] [("5_extra_metrics.csv").toList] ≠
      specSaveMetricsCsv .metrics [rec0] [("5_extra_metrics.csv").toList] := by
  refine ⟨by decide, by decide, by decide⟩

/-- C6 amended: the scan counts every file ending in "_metrics.csv" whose
segment before the first underscore is a digit string (a superset of the
exact "{integer}_metrics.csv" pattern); each save writes
"{nextIndex}_metrics.csv" with nextIndex the successor of the maximum
counted integer (1 when none); N successive saves against a location
initially holding no counted file produce 1_metrics.csv … N_metrics.csv;
and no save ever reuses a name already present in the listing. -/
theorem metrics_versioning_amended (m : List MetricsRecord) (hm : m ≠ [])
    (listing : List (List Char)) (hl : listing.filter isIndexedMetricsFile = []) :
    (∀ N, iterateSaves .metrics m listing N =
      listing ++ (List.range N).map fun i => natToDecimal (i + 1) ++ metricsTail) ∧
    (∀ listing' : List (List Char),
      saveMetricsCsv .metrics m listing' =
        some ⟨natToDecimal (nextMetricsIndex listing') ++ metricsTail, m⟩) ∧
    (∀ (listing' : List (List Char)) (s : SavedCsv),
      saveMetricsCsv .metrics m listing' = some s → s.fileName ∉ listing') := by
  refine ⟨iterateSaves_law m hm listing hl, ?_, ?_⟩
  · intro listing'
    unfold saveMetricsCsv
    rw [if_neg (by simp), if_neg hm]
  · intro listing' s hs
    exact saveMetricsCsv_no_overwrite m listing' s hs

/-- C6 witness: three successive saves against an empty metrics directory
produce exactly 1_metrics.csv, 2_metrics.csv, 3_metrics.csv. -/
theorem metrics_versioning_amended_witness :
    iterateSaves .metrics [rec0] [] 3 =
      [("1_metrics.csv").toList, ("2_metrics.csv").toList, ("3_metrics.csv").toList] := by
  have h := (metrics_versioning_amended [rec0] (by decide) [] rfl).1 3
  rw [h]
  decide

end Mark
